import Mathlib

/-!
Verification of the nfl-data-viz repository core against its specification.

Embedded source files:
* `src/inference.py` — the `predict` function (last-observation baseline
  predictor over pandas data frames).
* `src/scripts/validate_submission.py` — the `validate` batch-replay
  submission validator.

Tables are modelled as lists of rows together with boolean flags recording
which optional columns are present in the schema (a pandas data frame can
lack a column entirely; row fields corresponding to an absent column are
simply never consulted).  Identifier-valued cells are modelled as `Int`
(opaque comparable identifiers), coordinate cells as `Rat` (the exact values
carried by the floating-point cells; the code only selects and copies them,
it performs no arithmetic on them).
-/

namespace NflDataViz

/-- Compound entity key `(game_id, play_id, nfl_id)` (`key_cols` in
`inference.py`). -/
abbrev Key := Int × Int × Int

/-- One row of the historical-observation table `test_input`.  The
`frame_id`, `x` and `y` fields are meaningful only when the corresponding
schema flag of the enclosing `ObsTable` is set. -/
structure ObsRow where
  game_id : Int
  play_id : Int
  nfl_id : Int
  frame_id : Int
  x : Rat
  y : Rat
deriving DecidableEq

/-- The historical-observation table: schema flags plus rows in input
order. -/
structure ObsTable where
  has_game_id : Bool
  has_play_id : Bool
  has_nfl_id : Bool
  has_frame_id : Bool
  has_x : Bool
  has_y : Bool
  rows : List ObsRow
deriving DecidableEq

/-- One row of the query table `test` (one prediction request). -/
structure QueryRow where
  game_id : Int
  play_id : Int
  nfl_id : Int
deriving DecidableEq

/-- The query table: schema flags plus rows in input order. -/
structure QueryTable where
  has_game_id : Bool
  has_play_id : Bool
  has_nfl_id : Bool
  rows : List QueryRow
deriving DecidableEq

/-- One output row of `predict`: the returned frame has exactly the two
columns `x` and `y`. -/
structure Pred where
  x : Rat
  y : Rat
deriving DecidableEq

/-- The compound key of an observation row. -/
def keyOf (r : ObsRow) : Key := (r.game_id, r.play_id, r.nfl_id)

/-- The compound key of a query row, as read by
`(r['game_id'], r['play_id'], r['nfl_id'])`. -/
def rowKey (r : QueryRow) : Key := (r.game_id, r.play_id, r.nfl_id)

/-- `set(key_cols).issubset(set(ti.columns))`: all three key columns are
present in the observation table. -/
def tiKeysOk (t : ObsTable) : Bool :=
  t.has_game_id && t.has_play_id && t.has_nfl_id

/-- Strict lexicographic order on the sort columns
`['game_id', 'play_id', 'nfl_id', 'frame_id']` used by
`ti.sort_values(sort_cols)`. -/
def ltObs (a b : ObsRow) : Prop :=
  a.game_id < b.game_id ∨
    (a.game_id = b.game_id ∧
      (a.play_id < b.play_id ∨
        (a.play_id = b.play_id ∧
          (a.nfl_id < b.nfl_id ∨
            (a.nfl_id = b.nfl_id ∧ a.frame_id < b.frame_id)))))

instance (a b : ObsRow) : Decidable (ltObs a b) := by
  unfold ltObs; exact inferInstance

/-- Non-strict companion of `ltObs`. -/
def leObs (a b : ObsRow) : Prop := ¬ ltObs b a

/-- Stable insertion into a list ordered by `ltObs`: the new element is
placed before the first element not strictly below it, hence after every
earlier-inserted element it ties with. -/
def insLex (x : ObsRow) : List ObsRow → List ObsRow
  | [] => [x]
  | y :: ys => if ltObs y x then y :: insLex x ys else x :: y :: ys

/-- Stable sort by the sort columns, modelling
`ti.sort_values(key_cols + ['frame_id'])` (a multi-column pandas
`sort_values` is a stable lexicographic sort). -/
def sortLex (l : List ObsRow) : List ObsRow := l.foldr insLex []

/-- Stable insertion ordered by `frame_id` alone (used only to state and
prove what `sortLex` does inside one key group). -/
def insFr (x : ObsRow) : List ObsRow → List ObsRow
  | [] => [x]
  | y :: ys => if y.frame_id < x.frame_id then y :: insFr x ys else x :: y :: ys

/-- Stable sort by `frame_id` alone. -/
def sortFr (l : List ObsRow) : List ObsRow := l.foldr insFr []

/-- `frame.groupby(key_cols).last()` read off at one key `k`: the last row
of the group of `k` in the frame's row order (groups preserve the frame's
row order; `.last()` takes each group's last row). -/
def groupLast (rows : List ObsRow) (k : Key) : Option ObsRow :=
  (rows.filter (fun r => decide (keyOf r = k))).getLast?

/-- The per-key content of `last_obs` (lines 58–64 of `inference.py`): when
`'frame_id' in ti.columns` the table is first stably sorted by
`key_cols + ['frame_id']` and then grouped with `.last()`; otherwise the
rows are grouped in input order and `.last()` is taken directly. -/
def buildIndexKey (t : ObsTable) (k : Key) : Option ObsRow :=
  if t.has_frame_id then groupLast (sortLex t.rows) k else groupLast t.rows k

/-- `float(row.get('x', 0.0))`: the `x` cell of a selected row, or `0.0`
when the table has no `x` column. -/
def xval (t : ObsTable) (r : ObsRow) : Rat := if t.has_x then r.x else 0

/-- `float(row.get('y', 0.0))`: the `y` cell of a selected row, or `0.0`
when the table has no `y` column. -/
def yval (t : ObsTable) (r : ObsRow) : Rat := if t.has_y then r.y else 0

/-- The lookup dict of `inference.py` (lines 66–70), read at key `k`:
`last_obs` holds one row per key, so the dict maps `k` to that row's
`(x, y)` cells. -/
def lookupVal (t : ObsTable) (k : Key) : Option (Rat × Rat) :=
  (buildIndexKey t k).map (fun r => (xval t r, yval t r))

/-- `lookup.get(k, (0.0, 0.0))`: one prediction for the key `k`. -/
def predOne (t : ObsTable) (k : Key) : Pred :=
  match lookupVal t k with
  | some p => ⟨p.1, p.2⟩
  | none => ⟨0, 0⟩

/-- Reading the key cells of one query row
(`k = (r['game_id'], r['play_id'], r['nfl_id'])`): each access raises a
`KeyError` naming the column when it is absent from the query table's
schema, left to right. -/
def getQueryKey (t : QueryTable) (r : QueryRow) : Except String Key :=
  if t.has_game_id = false then Except.error "game_id"
  else if t.has_play_id = false then Except.error "play_id"
  else if t.has_nfl_id = false then Except.error "nfl_id"
  else Except.ok (rowKey r)

/-- The query loop of `inference.py` (lines 72–78): each row's key cells
are read (possibly raising) and the per-key prediction appended. -/
def predictLoop (t : ObsTable) (tq : QueryTable) : List QueryRow → Except String (List Pred)
  | [] => Except.ok []
  | r :: rs => do
      let k ← getQueryKey tq r
      let ps ← predictLoop t tq rs
      pure (predOne t k :: ps)

/-- `predict(test, test_input)` from `src/inference.py`: if the observation
table lacks any key column, a table of `(0.0, 0.0)` rows of the query
table's length is returned at once; otherwise the last-observation index is
built and each query row is answered through the lookup dict. -/
def predict (tq : QueryTable) (ti : ObsTable) : Except String (List Pred) :=
  if tiKeysOk ti = false then
    Except.ok (tq.rows.map (fun _ => ⟨0, 0⟩))
  else
    predictLoop ti tq tq.rows

/-- What `predict` produces for one query row when it does not raise:
the indexed `(x, y)` through the lookup dict, or the zero fallback when the
index is unavailable. -/
def predictRow (ti : ObsTable) (r : QueryRow) : Pred :=
  if tiKeysOk ti then predOne ti (rowKey r) else ⟨0, 0⟩

/-- A single-row query table carrying the key `k`, with all key columns
present. -/
def queryFor (k : Key) : QueryTable :=
  ⟨true, true, true, [⟨k.1, k.2.1, k.2.2⟩]⟩

/-! ### `src/scripts/validate_submission.py` -/

/-- One row of the loaded submission CSV.  `extra` carries the cells of any
further columns beyond `id`, `x`, `y`; they are dropped by the selection
`sel[["x", "y"]]`. -/
structure SubRow where
  id : Int
  x : Rat
  y : Rat
  extra : List Rat
deriving DecidableEq

/-- The loaded submission: schema flags for the required columns plus the
rows. -/
structure Submission where
  has_id : Bool
  has_x : Bool
  has_y : Bool
  rows : List SubRow
deriving DecidableEq

/-- One row of the coordinate table handed to the external check: exactly
the two columns `x` and `y` (`sel[["x", "y"]]`). -/
structure Candidate where
  x : Rat
  y : Rat
deriving DecidableEq

/-- One batch yielded by `gw.generate_data_batches()`: an opaque payload
and the ordered identifiers the batch expects answered. -/
structure Batch where
  payload : Int
  row_ids : List Int
deriving DecidableEq

/-- The `GatewayRuntimeError` surfaced by
`gw.competition_specific_validation`. -/
structure GatewayRuntimeError where
  error_type : String
  error_details : String
deriving DecidableEq

/-- The external structural/value check, an external collaborator passed in
as a function: it either accepts or raises a `GatewayRuntimeError`. -/
abbrev Check := List Candidate → List Int → Int → Except GatewayRuntimeError Unit

/-- Terminal outcome of a `validate` run, one constructor per `sys.exit`
site (plus the success path).  `harnessError` records the externally
reported kind and details verbatim together with the value of the
`total_rows` accumulator at the moment of exit. -/
inductive VResult where
  | ok (total_rows : Nat) (batch_count : Nat)
  | configError (msg : String)
  | missingIds (batch_idx : Nat) (missing : List Int)
  | harnessError (error_type : String) (error_details : String) (total_rows : Nat)
deriving DecidableEq

/-- The process exit code of each outcome (`sys.exit` arguments; `0` for
the success path). -/
def exitCode : VResult → Nat
  | .ok _ _ => 0
  | .configError _ => 2
  | .missingIds _ _ => 2
  | .harnessError _ _ _ => 3

/-- Whether the submission holds a row with identifier `i`. -/
def hasId (sub : List SubRow) (i : Int) : Bool :=
  sub.any (fun r => decide (r.id = i))

/-- The identifiers requested by batch `b` that are absent from the
submission — exactly the labels on which `sub_indexed.loc[row_id_list]`
raises its `KeyError`. -/
def missingFor (sub : List SubRow) (b : Batch) : List Int :=
  b.row_ids.filter (fun i => ! hasId sub i)

/-- `sub_indexed.loc[row_id_list]` when every label is present: for each
requested identifier, in request order, all submission rows bearing it (a
duplicated index label selects every matching row). -/
def selFor (sub : List SubRow) : List Int → List SubRow
  | [] => []
  | i :: is => sub.filter (fun r => decide (r.id = i)) ++ selFor sub is

/-- `sel[["x", "y"]].reset_index(drop=True)`: the selected rows for batch
`b` stripped to the two coordinate columns. -/
def candidateFor (sub : List SubRow) (b : Batch) : List Candidate :=
  (selFor sub b.row_ids).map (fun r => ⟨r.x, r.y⟩)

/-- The batch loop of `validate` (lines 63–93): `batch_idx` counts batches
starting from `0`, `total` accumulates validated rows.  Per batch: a missing
requested identifier aborts with the missing-ids exit naming the 1-based
batch index; otherwise the reordered coordinate table is handed to the
external check, whose `GatewayRuntimeError` aborts with the harness-error
exit; on acceptance the row total grows by the candidate table's length and
the loop continues. -/
def validateBatches (chk : Check) (sub : List SubRow) :
    Nat → Nat → List Batch → VResult
  | batch_idx, total, [] => .ok total batch_idx
  | batch_idx, total, b :: rest =>
    if missingFor sub b ≠ [] then
      .missingIds (batch_idx + 1) (missingFor sub b)
    else
      match chk (candidateFor sub b) b.row_ids b.payload with
      | .error e => .harnessError e.error_type e.error_details total
      | .ok _ => validateBatches chk sub (batch_idx + 1)
          (total + (candidateFor sub b).length) rest

/-- `validate` from `src/scripts/validate_submission.py` (the loaded
submission and the gateway's batch stream passed in): the `id` column check,
then the `x`/`y` column check — both before any batch is consumed — then the
batch loop. -/
def validate (s : Submission) (chk : Check) (batches : List Batch) : VResult :=
  if s.has_id = false then .configError "submission must contain the id column"
  else if (s.has_x && s.has_y) = false then
    .configError "submission must include columns x and y"
  else validateBatches chk s.rows 0 0 batches

/-! ### Order lemmas for the sort columns -/

theorem ltObs_asymm {a b : ObsRow} (h : ltObs a b) : ¬ ltObs b a := by
  unfold ltObs at *; omega

theorem leObs_trans {a b c : ObsRow} (h1 : leObs a b) (h2 : leObs b c) : leObs a c := by
  unfold leObs ltObs at *; omega

theorem ltObs_of_sameKey {a b : ObsRow} (hk : keyOf a = keyOf b) :
    ltObs a b ↔ a.frame_id < b.frame_id := by
  unfold keyOf at hk
  simp only [Prod.mk.injEq] at hk
  unfold ltObs; omega

/-! ### Stable insertion sort lemmas -/

theorem mem_insLex {x z : ObsRow} {l : List ObsRow} : z ∈ insLex x l ↔ z = x ∨ z ∈ l := by
  induction l with
  | nil => simp [insLex]
  | cons y ys ih =>
    unfold insLex
    by_cases h : ltObs y x
    · simp only [if_pos h, List.mem_cons, ih]; tauto
    · simp only [if_neg h, List.mem_cons]

theorem pairwise_insLex {x : ObsRow} {l : List ObsRow} (hl : l.Pairwise leObs) :
    (insLex x l).Pairwise leObs := by
  induction l with
  | nil => simp [insLex]
  | cons y ys ih =>
    rw [List.pairwise_cons] at hl
    obtain ⟨hy, hys⟩ := hl
    unfold insLex
    by_cases h : ltObs y x
    · rw [if_pos h, List.pairwise_cons]
      refine ⟨?_, ih hys⟩
      intro z hz
      rcases mem_insLex.mp hz with rfl | hz'
      · exact ltObs_asymm h
      · exact hy z hz'
    · rw [if_neg h, List.pairwise_cons]
      refine ⟨?_, List.pairwise_cons.mpr ⟨hy, hys⟩⟩
      intro z hz
      rcases List.mem_cons.mp hz with rfl | hz'
      · exact h
      · exact leObs_trans h (hy z hz')

theorem pairwise_sortLex (l : List ObsRow) : (sortLex l).Pairwise leObs := by
  induction l with
  | nil => simp [sortLex]
  | cons x xs ih => exact pairwise_insLex ih

theorem filter_insLex_neg {x : ObsRow} {l : List ObsRow} {k : Key} (hx : ¬ keyOf x = k) :
    (insLex x l).filter (fun r => decide (keyOf r = k)) =
      l.filter (fun r => decide (keyOf r = k)) := by
  induction l with
  | nil => simp [insLex, hx]
  | cons y ys ih =>
    unfold insLex
    by_cases h : ltObs y x
    · rw [if_pos h]; simp [List.filter_cons, ih]
    · rw [if_neg h]; simp [List.filter_cons, hx]

theorem insFr_eq_cons {x : ObsRow} {l : List ObsRow}
    (h : ∀ z ∈ l, ¬ z.frame_id < x.frame_id) : insFr x l = x :: l := by
  cases l with
  | nil => rfl
  | cons y ys =>
    unfold insFr
    rw [if_neg (h y (List.mem_cons_self y ys))]

theorem filter_insLex_pos {x : ObsRow} {l : List ObsRow} {k : Key} (hx : keyOf x = k)
    (hl : l.Pairwise leObs) :
    (insLex x l).filter (fun r => decide (keyOf r = k)) =
      insFr x (l.filter (fun r => decide (keyOf r = k))) := by
  induction l with
  | nil => simp [insLex, insFr, hx]
  | cons y ys ih =>
    rw [List.pairwise_cons] at hl
    obtain ⟨hy, hys⟩ := hl
    unfold insLex
    by_cases h : ltObs y x
    · rw [if_pos h]
      by_cases hpy : keyOf y = k
      · have hfr : y.frame_id < x.frame_id :=
          (ltObs_of_sameKey (hpy.trans hx.symm)).mp h
        simp [List.filter_cons, hpy, ih hys, insFr, hfr]
      · simp [List.filter_cons, hpy, ih hys]
    · rw [if_neg h]
      have hall : ∀ z ∈ (y :: ys).filter (fun r => decide (keyOf r = k)),
          ¬ z.frame_id < x.frame_id := by
        intro z hz
        have hzmem : z ∈ y :: ys := List.mem_of_mem_filter hz
        have hzk : keyOf z = k := by
          have := List.of_mem_filter hz
          simpa using this
        have hzx : ¬ ltObs z x := by
          rcases List.mem_cons.mp hzmem with rfl | hz'
          · exact h
          · exact leObs_trans h (hy z hz')
        rwa [ltObs_of_sameKey (hzk.trans hx.symm)] at hzx
      rw [List.filter_cons_of_pos (by simp [hx]), insFr_eq_cons hall]

theorem filter_sortLex (l : List ObsRow) (k : Key) :
    (sortLex l).filter (fun r => decide (keyOf r = k)) =
      sortFr (l.filter (fun r => decide (keyOf r = k))) := by
  induction l with
  | nil => rfl
  | cons x xs ih =>
    show (insLex x (sortLex xs)).filter _ = _
    by_cases hx : keyOf x = k
    · rw [filter_insLex_pos hx (pairwise_sortLex xs), ih,
        List.filter_cons_of_pos (by simp [hx])]
      rfl
    · rw [filter_insLex_neg hx, ih, List.filter_cons_of_neg (by simp [hx])]

/-! ### Last element of the frame-sorted group -/

theorem insFr_ne_nil (x : ObsRow) (l : List ObsRow) : insFr x l ≠ [] := by
  cases l with
  | nil => simp [insFr]
  | cons y ys => unfold insFr; split <;> simp

theorem mem_insFr {x z : ObsRow} {l : List ObsRow} : z ∈ insFr x l ↔ z = x ∨ z ∈ l := by
  induction l with
  | nil => simp [insFr]
  | cons y ys ih =>
    unfold insFr
    by_cases h : y.frame_id < x.frame_id
    · simp only [if_pos h, List.mem_cons, ih]; tauto
    · simp only [if_neg h, List.mem_cons]

theorem mem_sortFr {z : ObsRow} {l : List ObsRow} : z ∈ sortFr l ↔ z ∈ l := by
  induction l with
  | nil => simp [sortFr]
  | cons x xs ih =>
    show z ∈ insFr x (sortFr xs) ↔ _
    rw [mem_insFr, ih, List.mem_cons]

theorem getLast?_insFr (x : ObsRow) (l : List ObsRow) :
    (insFr x l).getLast? =
      if l.all (fun z => decide (z.frame_id < x.frame_id)) then some x
      else l.getLast? := by
  induction l with
  | nil => simp [insFr]
  | cons y ys ih =>
    unfold insFr
    by_cases h : y.frame_id < x.frame_id
    · rw [if_pos h]
      cases hins : insFr x ys with
      | nil => exact absurd hins (insFr_ne_nil x ys)
      | cons a as =>
        rw [List.getLast?_cons_cons, ← hins, ih]
        by_cases hall : ys.all (fun z => decide (z.frame_id < x.frame_id))
        · simp [hall, h]
        · simp only [List.all_cons, hall, Bool.and_false, if_neg (by simp : ¬ (false = true))]
          have hysne : ys ≠ [] := by
            intro hnil; subst hnil; simp at hall
          cases ys with
          | nil => exact absurd rfl hysne
          | cons b bs => rw [List.getLast?_cons_cons]
    · rw [if_neg h, List.getLast?_cons_cons]
      simp [h]

theorem getLast?_sortFr_max (g : List ObsRow) (M : Int)
    (hub : ∀ r ∈ g, r.frame_id ≤ M) (hex : ∃ r ∈ g, r.frame_id = M) :
    (sortFr g).getLast? = (g.filter (fun r => decide (r.frame_id = M))).getLast? := by
  induction g with
  | nil => simp at hex
  | cons x xs ih =>
    show (insFr x (sortFr xs)).getLast? = _
    rw [getLast?_insFr]
    by_cases hexs : ∃ r ∈ xs, r.frame_id = M
    · obtain ⟨z, hzmem, hzM⟩ := hexs
      have hxM : x.frame_id ≤ M := hub x (List.mem_cons_self x xs)
      have hallfalse : (sortFr xs).all (fun z => decide (z.frame_id < x.frame_id)) = false := by
        refine List.all_eq_false.mpr ⟨z, mem_sortFr.mpr hzmem, ?_⟩
        simp only [decide_eq_true_eq]
        omega
      rw [hallfalse, if_neg (by simp : ¬ (false = true)),
        ih (fun r hr => hub r (List.mem_cons_of_mem x hr)) ⟨z, hzmem, hzM⟩]
      by_cases hxMeq : x.frame_id = M
      · have hne : xs.filter (fun r => decide (r.frame_id = M)) ≠ [] :=
          List.ne_nil_of_mem (List.mem_filter.mpr ⟨hzmem, by simp [hzM]⟩)
        rw [List.filter_cons_of_pos (by simp [hxMeq])]
        cases hfil : xs.filter (fun r => decide (r.frame_id = M)) with
        | nil => exact absurd hfil hne
        | cons a as => rw [List.getLast?_cons_cons]
      · rw [List.filter_cons_of_neg (by simp [hxMeq])]
    · have hxM : x.frame_id = M := by
        obtain ⟨r, hr, hrM⟩ := hex
        rcases List.mem_cons.mp hr with rfl | hr'
        · exact hrM
        · exact absurd ⟨r, hr', hrM⟩ hexs
      have halltrue : (sortFr xs).all (fun z => decide (z.frame_id < x.frame_id)) = true := by
        refine List.all_eq_true.mpr ?_
        intro z hz
        have hzmem := mem_sortFr.mp hz
        have h1 : z.frame_id ≤ M := hub z (List.mem_cons_of_mem x hzmem)
        have h2 : ¬ z.frame_id = M := fun he => hexs ⟨z, hzmem, he⟩
        simp only [decide_eq_true_eq]
        omega
      have hfilnil : xs.filter (fun r => decide (r.frame_id = M)) = [] := by
        refine List.filter_eq_nil_iff.mpr ?_
        intro r hr
        simp only [decide_eq_true_eq]
        exact fun he => hexs ⟨r, hr, he⟩
      rw [halltrue, if_pos rfl, List.filter_cons_of_pos (by simp [hxM]), hfilnil]
      rfl

theorem getLast?_eq_of_all {α : Type} {l : List α} {a : α} (hne : l ≠ [])
    (hall : ∀ z ∈ l, z = a) : l.getLast? = some a := by
  induction l with
  | nil => exact absurd rfl hne
  | cons x xs ih =>
    cases xs with
    | nil => rw [hall x (List.mem_cons_self x [])]; rfl
    | cons b bs =>
      rw [List.getLast?_cons_cons]
      exact ih (by simp) (fun z hz => hall z (List.mem_cons_of_mem x hz))

/-! ### The built index at one key -/

/-- The index entry for key `k` when the `frame_id` column is present: the
group's row of maximal `frame_id`, the last such row in input order when
several share the maximum. -/
theorem buildIndexKey_frame (ti : ObsTable) (hf : ti.has_frame_id = true) (k : Key) (M : Int)
    (hub : ∀ r ∈ ti.rows, keyOf r = k → r.frame_id ≤ M)
    (hex : ∃ r ∈ ti.rows, keyOf r = k ∧ r.frame_id = M) :
    buildIndexKey ti k =
      ((ti.rows.filter (fun r => decide (keyOf r = k))).filter
        (fun r => decide (r.frame_id = M))).getLast? := by
  unfold buildIndexKey groupLast
  rw [hf, if_pos rfl, filter_sortLex]
  refine getLast?_sortFr_max _ M ?_ ?_
  · intro r hr
    have hmem := List.mem_of_mem_filter hr
    have hk : keyOf r = k := by
      have := List.of_mem_filter hr
      simpa using this
    exact hub r hmem hk
  · obtain ⟨r, hr, hk, hM⟩ := hex
    exact ⟨r, List.mem_filter.mpr ⟨hr, by simp [hk]⟩, hM⟩

/-- The index entry for key `k` when the `frame_id` column is absent: the
group's last row in input order. -/
theorem buildIndexKey_noFrame (ti : ObsTable) (hf : ti.has_frame_id = false) (k : Key) :
    buildIndexKey ti k = (ti.rows.filter (fun r => decide (keyOf r = k))).getLast? := by
  unfold buildIndexKey groupLast
  rw [hf]
  rfl

/-! ### The query loop -/

theorem predictLoop_ok (ti : ObsTable) (tq : QueryTable)
    (hg : tq.has_game_id = true) (hp : tq.has_play_id = true) (hn : tq.has_nfl_id = true)
    (rs : List QueryRow) :
    predictLoop ti tq rs = Except.ok (rs.map (fun r => predOne ti (rowKey r))) := by
  induction rs with
  | nil => rfl
  | cons r rs ih =>
    have hq : getQueryKey tq r = Except.ok (rowKey r) := by
      simp [getQueryKey, hg, hp, hn]
    simp only [predictLoop, hq, ih]
    rfl

theorem predict_ok (tq : QueryTable) (ti : ObsTable)
    (hg : tq.has_game_id = true) (hp : tq.has_play_id = true) (hn : tq.has_nfl_id = true) :
    predict tq ti = Except.ok (tq.rows.map (predictRow ti)) := by
  unfold predict
  cases hk : tiKeysOk ti with
  | false =>
    rw [if_pos rfl]
    have hfun : predictRow ti = fun _ : QueryRow => (⟨0, 0⟩ : Pred) :=
      funext fun r => by simp [predictRow, hk]
    rw [hfun]
  | true =>
    rw [if_neg (by simp), predictLoop_ok ti tq hg hp hn]
    have : ∀ r : QueryRow, predictRow ti r = predOne ti (rowKey r) := by
      intro r; simp [predictRow, hk]
    simp [this]

/-! ### Claims about the predictor -/

/-- Claim C1: for an entity key `K` appearing in the observation table, with
the `frame_id` column present and frame ids distinct within `K`, predicting
for `K` returns the `(x, y)` of the observation record with the numerically
greatest `frame_id` for `K`. -/
theorem claim_C1 (ti : ObsTable) (K : Key) (rstar : ObsRow)
    (hg : ti.has_game_id = true) (hp : ti.has_play_id = true) (hn : ti.has_nfl_id = true)
    (hf : ti.has_frame_id = true) (hx : ti.has_x = true) (hy : ti.has_y = true)
    (hmem : rstar ∈ ti.rows) (hk : keyOf rstar = K)
    (hmax : ∀ r ∈ ti.rows, keyOf r = K → r.frame_id ≤ rstar.frame_id)
    (huniq : ∀ r ∈ ti.rows, keyOf r = K → r.frame_id = rstar.frame_id → r = rstar) :
    predict (queryFor K) ti = Except.ok [⟨rstar.x, rstar.y⟩] := by
  obtain ⟨k1, k2, k3⟩ := K
  have hidx : buildIndexKey ti (k1, k2, k3) = some rstar := by
    rw [buildIndexKey_frame ti hf (k1, k2, k3) rstar.frame_id hmax ⟨rstar, hmem, hk, rfl⟩]
    apply getLast?_eq_of_all
    · apply List.ne_nil_of_mem (a := rstar)
      exact List.mem_filter.mpr ⟨List.mem_filter.mpr ⟨hmem, by simp [hk]⟩, by simp⟩
    · intro z hz
      have hz1 := List.mem_filter.mp hz
      have hz2 := List.mem_filter.mp hz1.1
      refine huniq z hz2.1 ?_ ?_
      · simpa using hz2.2
      · simpa using hz1.2
  have hkeys : tiKeysOk ti = true := by simp [tiKeysOk, hg, hp, hn]
  have hone : predOne ti (k1, k2, k3) = ⟨rstar.x, rstar.y⟩ := by
    unfold predOne lookupVal
    rw [hidx]
    simp [xval, yval, hx, hy]
  unfold predict
  rw [if_neg (by simp [hkeys])]
  unfold queryFor predictLoop
  simp only [getQueryKey, predictLoop, rowKey]
  norm_num
  exact congrArg (fun p => Except.ok [p]) hone

/-- Witness for C1: the spec's Scenario 1 — observations
`[(1,1,1, frame 1, x 1, y 1), (1,1,1, frame 2, x 5, y 9)]`, query `(1,1,1)`,
prediction `(5, 9)`. -/
theorem claim_C1_witness :
    predict (queryFor (1, 1, 1))
      ⟨true, true, true, true, true, true,
        [⟨1, 1, 1, 1, 1, 1⟩, ⟨1, 1, 1, 2, 5, 9⟩]⟩ = Except.ok [⟨5, 9⟩] :=
  claim_C1 _ _ (⟨1, 1, 1, 2, 5, 9⟩ : ObsRow) rfl rfl rfl rfl rfl rfl
    (by decide) rfl (by decide) (by decide)

/-- Claim C4: a query key absent from the built index receives the fixed
`(0.0, 0.0)` fallback without an error, and when the observation table lacks
a required key column every query receives that same fallback. -/
theorem claim_C4 (ti : ObsTable) (tq : QueryTable)
    (hg : tq.has_game_id = true) (hp : tq.has_play_id = true) (hn : tq.has_nfl_id = true) :
    predict tq ti = Except.ok (tq.rows.map (predictRow ti))
    ∧ (∀ r ∈ tq.rows, buildIndexKey ti (rowKey r) = none → predictRow ti r = ⟨0, 0⟩)
    ∧ (tiKeysOk ti = false → predict tq ti = Except.ok (tq.rows.map (fun _ => ⟨0, 0⟩))) := by
  refine ⟨predict_ok tq ti hg hp hn, ?_, ?_⟩
  · intro r _ hnone
    unfold predictRow
    cases hk : tiKeysOk ti with
    | false => rw [if_neg (by simp [hk])]
    | true =>
      rw [if_pos (by simp [hk])]
      unfold predOne lookupVal
      rw [hnone]
      rfl
  · intro hk
    unfold predict
    rw [if_pos hk]

/-- Witness for C4: Scenario 3 — query key `(9,9,9)` not present in any
observation receives `(0, 0)`; a schema-mismatched observation table sends
every query to `(0, 0)`. -/
theorem claim_C4_witness :
    predict ⟨true, true, true, [⟨9, 9, 9⟩]⟩
        ⟨true, true, true, true, true, true, [⟨1, 1, 1, 1, 1, 1⟩]⟩ =
      Except.ok (List.map
        (predictRow ⟨true, true, true, true, true, true, [⟨1, 1, 1, 1, 1, 1⟩]⟩)
        [⟨9, 9, 9⟩]) ∧
    predict ⟨true, true, true, [⟨9, 9, 9⟩]⟩
        ⟨false, true, true, true, true, true, [⟨1, 1, 1, 1, 1, 1⟩]⟩ =
      Except.ok [⟨0, 0⟩] := by
  constructor
  · exact (claim_C4 ⟨true, true, true, true, true, true, [⟨1, 1, 1, 1, 1, 1⟩]⟩
      ⟨true, true, true, [⟨9, 9, 9⟩]⟩ rfl rfl rfl).1
  · exact ((claim_C4 ⟨false, true, true, true, true, true, [⟨1, 1, 1, 1, 1, 1⟩]⟩
      ⟨true, true, true, [⟨9, 9, 9⟩]⟩ rfl rfl rfl).2.2 rfl).trans (by rfl)

/-- Claim C3: within each entity-key group, when the `frame_id` column is
absent the record selected for the index is the group's last record in input
order, and when `frame_id` is present the record selected is the last record
in input order among those sharing the group's maximal `frame_id` (stable
tie-break). -/
theorem claim_C3 (ti : ObsTable) (K : Key) :
    (ti.has_frame_id = false →
      buildIndexKey ti K = (ti.rows.filter (fun r => decide (keyOf r = K))).getLast?)
    ∧ (∀ M : Int, ti.has_frame_id = true →
        (∀ r ∈ ti.rows, keyOf r = K → r.frame_id ≤ M) →
        (∃ r ∈ ti.rows, keyOf r = K ∧ r.frame_id = M) →
        buildIndexKey ti K =
          (ti.rows.filter
            (fun r => decide (keyOf r = K) && decide (r.frame_id = M))).getLast?) := by
  constructor
  · intro hf
    exact buildIndexKey_noFrame ti hf K
  · intro M hf hub hex
    rw [buildIndexKey_frame ti hf K M hub hex, List.filter_filter]
    congr 1
    apply List.filter_congr
    intro a _
    exact Bool.and_comm _ _

/-- Witness for C3: the spec's Scenario 2 — no `frame_id` column,
observations `[(7,7,7, x 1, y 1), (7,7,7, x 2, y 2)]` in input order select
the second record and predict `(2, 2)`; with `frame_id` present and tied at
the maximum, the input-order-last of the tied records is selected. -/
theorem claim_C3_witness :
    buildIndexKey ⟨true, true, true, false, true, true,
        [⟨7, 7, 7, 0, 1, 1⟩, ⟨7, 7, 7, 0, 2, 2⟩]⟩ (7, 7, 7) = some ⟨7, 7, 7, 0, 2, 2⟩ ∧
    predict (queryFor (7, 7, 7)) ⟨true, true, true, false, true, true,
        [⟨7, 7, 7, 0, 1, 1⟩, ⟨7, 7, 7, 0, 2, 2⟩]⟩ = Except.ok [⟨2, 2⟩] ∧
    buildIndexKey ⟨true, true, true, true, true, true,
        [⟨1, 1, 1, 5, 10, 10⟩, ⟨1, 1, 1, 5, 20, 20⟩, ⟨1, 1, 1, 3, 30, 30⟩]⟩ (1, 1, 1) =
      some ⟨1, 1, 1, 5, 20, 20⟩ := by
  refine ⟨?_, by rfl, ?_⟩
  · exact ((claim_C3 ⟨true, true, true, false, true, true,
      [⟨7, 7, 7, 0, 1, 1⟩, ⟨7, 7, 7, 0, 2, 2⟩]⟩ (7, 7, 7)).1 rfl).trans (by rfl)
  · exact ((claim_C3 ⟨true, true, true, true, true, true,
      [⟨1, 1, 1, 5, 10, 10⟩, ⟨1, 1, 1, 5, 20, 20⟩, ⟨1, 1, 1, 3, 30, 30⟩]⟩
      (1, 1, 1)).2 5 rfl (by decide) (by decide)).trans (by rfl)

/-- Claim C7 (amended): for every query table whose schema carries the three
key columns, and every observation table, `predict` returns — without
raising — a table with exactly the columns `x` and `y` (the `Pred` row
type), with as many rows as the query table, the `i`-th prediction row
determined by the `i`-th query row. -/
theorem claim_C7 (tq : QueryTable) (ti : ObsTable)
    (hg : tq.has_game_id = true) (hp : tq.has_play_id = true) (hn : tq.has_nfl_id = true) :
    ∃ ps : List Pred, predict tq ti = Except.ok ps ∧ ps.length = tq.rows.length ∧
      ∀ (i : Nat) (h1 : i < ps.length) (h2 : i < tq.rows.length),
        ps.get ⟨i, h1⟩ = predictRow ti (tq.rows.get ⟨i, h2⟩) := by
  refine ⟨tq.rows.map (predictRow ti), predict_ok tq ti hg hp hn, by simp, ?_⟩
  intro i h1 h2
  simp [List.get_eq_getElem, List.getElem_map]

/-- Counterexample to C7 as stated: a one-row query table lacking the
`nfl_id` column, against an observation table that has the key columns,
makes `predict` raise a key lookup error instead of returning a
one-row prediction table. -/
theorem claim_C7_cex :
    predict ⟨true, true, false, [⟨1, 1, 1⟩]⟩
      ⟨true, true, true, true, true, true, [⟨1, 1, 1, 1, 1, 1⟩]⟩ =
      Except.error "nfl_id" := rfl

/-- Witness for C7 at a concrete input: a two-row query table with all key
columns present. -/
theorem claim_C7_witness :
    ∃ ps : List Pred,
      predict ⟨true, true, true, [⟨1, 1, 1⟩, ⟨9, 9, 9⟩]⟩
          ⟨true, true, true, true, true, true, [⟨1, 1, 1, 1, 1, 1⟩]⟩ = Except.ok ps ∧
      ps.length = List.length [(⟨1, 1, 1⟩ : QueryRow), ⟨9, 9, 9⟩] ∧
      ∀ (i : Nat) (h1 : i < ps.length)
        (h2 : i < List.length [(⟨1, 1, 1⟩ : QueryRow), ⟨9, 9, 9⟩]),
        ps.get ⟨i, h1⟩ =
          predictRow ⟨true, true, true, true, true, true, [⟨1, 1, 1, 1, 1, 1⟩]⟩
            (List.get [(⟨1, 1, 1⟩ : QueryRow), ⟨9, 9, 9⟩] ⟨i, h2⟩) :=
  claim_C7 ⟨true, true, true, [⟨1, 1, 1⟩, ⟨9, 9, 9⟩]⟩
    ⟨true, true, true, true, true, true, [⟨1, 1, 1, 1, 1, 1⟩]⟩ rfl rfl rfl

/-- Claim C9 (amended): the schema-mismatch fallback applies only to the
observation table — a nonempty query table lacking one of the key columns,
while the observation table has them, makes `predict` raise a key lookup
error while iterating query rows instead of returning the `(0, 0)`
fallback. -/
theorem claim_C9 (tq : QueryTable) (ti : ObsTable) (hkeys : tiKeysOk ti = true)
    (hne : tq.rows ≠ [])
    (hmiss : tq.has_game_id = false ∨ tq.has_play_id = false ∨ tq.has_nfl_id = false) :
    ∃ e : String, predict tq ti = Except.error e := by
  obtain ⟨r, rs, hrows⟩ : ∃ r rs, tq.rows = r :: rs := by
    cases h : tq.rows with
    | nil => exact absurd h hne
    | cons a as => exact ⟨a, as, rfl⟩
  have hloop : ∀ e : String, getQueryKey tq r = Except.error e →
      predict tq ti = Except.error e := by
    intro e he
    unfold predict
    rw [if_neg (by simp [hkeys]), hrows]
    unfold predictLoop
    rw [he]
    rfl
  by_cases hg : tq.has_game_id = false
  · exact ⟨"game_id", hloop _ (by simp [getQueryKey, hg])⟩
  · by_cases hp : tq.has_play_id = false
    · exact ⟨"play_id", hloop _ (by simp [getQueryKey, hg, hp])⟩
    · have hn : tq.has_nfl_id = false := by tauto
      exact ⟨"nfl_id", hloop _ (by simp [getQueryKey, hg, hp, hn])⟩

/-- Counterexample to C9 as stated: a query table lacking the `nfl_id`
column but holding no rows at all never reaches a key access, so `predict`
returns an empty prediction table instead of raising. -/
theorem claim_C9_cex :
    predict ⟨true, true, false, ([] : List QueryRow)⟩
      ⟨true, true, true, true, true, true, [⟨2, 2, 2, 1, 3, 4⟩]⟩ = Except.ok [] := rfl

/-- Witness for C9 at a concrete input: one query row, `nfl_id` column
absent from the query table, key columns present in the observation
table. -/
theorem claim_C9_witness :
    ∃ e : String, predict ⟨true, true, false, [⟨1, 1, 1⟩]⟩
      ⟨true, true, true, true, true, true, [⟨2, 2, 2, 1, 3, 4⟩]⟩ = Except.error e :=
  claim_C9 ⟨true, true, false, [⟨1, 1, 1⟩]⟩
    ⟨true, true, true, true, true, true, [⟨2, 2, 2, 1, 3, 4⟩]⟩ rfl (by simp)
    (Or.inr (Or.inr rfl))

/-! ### Validator helper lemmas -/

theorem validateBatches_nil (chk : Check) (sub : List SubRow) (idx total : Nat) :
    validateBatches chk sub idx total [] = VResult.ok total idx := rfl

theorem validateBatches_cons (chk : Check) (sub : List SubRow) (idx total : Nat)
    (b : Batch) (rest : List Batch) :
    validateBatches chk sub idx total (b :: rest) =
      if missingFor sub b ≠ [] then VResult.missingIds (idx + 1) (missingFor sub b)
      else
        match chk (candidateFor sub b) b.row_ids b.payload with
        | Except.error e => VResult.harnessError e.error_type e.error_details total
        | Except.ok _ => validateBatches chk sub (idx + 1)
            (total + (candidateFor sub b).length) rest := rfl

theorem validateBatches_append (chk : Check) (sub : List SubRow) (l : List Batch) :
    ∀ (pre : List Batch) (idx total T C : Nat),
      validateBatches chk sub idx total pre = VResult.ok T C →
      validateBatches chk sub idx total (pre ++ l) = validateBatches chk sub C T l := by
  intro pre
  induction pre with
  | nil =>
    intro idx total T C h
    rw [validateBatches_nil] at h
    obtain ⟨h1, h2⟩ := VResult.ok.inj h
    rw [List.nil_append, h1, h2]
  | cons b bs ih =>
    intro idx total T C h
    rw [validateBatches_cons] at h
    rw [List.cons_append, validateBatches_cons]
    by_cases hm : missingFor sub b ≠ []
    · rw [if_pos hm] at h
      exact absurd h (by simp)
    · rw [if_neg hm] at h
      rw [if_neg hm]
      cases hchk : chk (candidateFor sub b) b.row_ids b.payload with
      | error e =>
        rw [hchk] at h
        exact absurd h (by simp)
      | ok u =>
        rw [hchk] at h
        exact ih _ _ _ _ h

theorem selFor_map (sub : List SubRow) (f : Int → SubRow) :
    ∀ ids : List Int,
      (∀ i ∈ ids, sub.filter (fun r => decide (r.id = i)) = [f i]) →
      selFor sub ids = ids.map f := by
  intro ids
  induction ids with
  | nil => intro _; rfl
  | cons i is ih =>
    intro h
    unfold selFor
    rw [h i (List.mem_cons_self i is), ih (fun j hj => h j (List.mem_cons_of_mem i hj))]
    rfl

theorem selFor_length_le (sub : List SubRow) :
    ∀ ids : List Int, (∀ j ∈ ids, hasId sub j = true) →
      ids.length ≤ (selFor sub ids).length := by
  intro ids
  induction ids with
  | nil => intro _; exact Nat.le_refl 0
  | cons j js ih =>
    intro hall
    unfold selFor
    rw [List.length_append, List.length_cons]
    have hjlen : 1 ≤ (sub.filter (fun r => decide (r.id = j))).length := by
      obtain ⟨r, hr, hrid⟩ := List.any_eq_true.mp (hall j (List.mem_cons_self j js))
      exact List.length_pos_of_mem (List.mem_filter.mpr ⟨hr, hrid⟩)
    have := ih (fun a ha => hall a (List.mem_cons_of_mem j ha))
    omega

theorem selFor_length_lt (sub : List SubRow) (i : Int) :
    ∀ ids : List Int, (∀ j ∈ ids, hasId sub j = true) → i ∈ ids →
      2 ≤ (sub.filter (fun r => decide (r.id = i))).length →
      ids.length < (selFor sub ids).length := by
  intro ids
  induction ids with
  | nil => intro _ h; simp at h
  | cons j js ih =>
    intro hall hmem hdup
    unfold selFor
    rw [List.length_append, List.length_cons]
    have hjlen : 1 ≤ (sub.filter (fun r => decide (r.id = j))).length := by
      obtain ⟨r, hr, hrid⟩ := List.any_eq_true.mp (hall j (List.mem_cons_self j js))
      exact List.length_pos_of_mem (List.mem_filter.mpr ⟨hr, hrid⟩)
    rcases List.mem_cons.mp hmem with rfl | hmem'
    · have hrest := selFor_length_le sub js (fun a ha => hall a (List.mem_cons_of_mem i ha))
      omega
    · have := ih (fun a ha => hall a (List.mem_cons_of_mem j ha)) hmem' hdup
      omega

/-! ### Claims about the validator -/

/-- Claim C2: when every identifier a batch expects is present in the
submission (here: has exactly one submission row), the batch is not rejected
for missing ids and the table handed to the external check consists of
exactly the `x`, `y` cells (the `Candidate` row type — `id` and any extra
columns stripped) of the submission rows for `expected_row_ids`, in exactly
the order of `expected_row_ids`. -/
theorem claim_C2 (sub : List SubRow) (b : Batch) (f : Int → SubRow)
    (hf : ∀ i ∈ b.row_ids, sub.filter (fun r => decide (r.id = i)) = [f i]) :
    missingFor sub b = [] ∧
    candidateFor sub b = b.row_ids.map (fun i => ⟨(f i).x, (f i).y⟩) := by
  constructor
  · unfold missingFor
    refine List.filter_eq_nil_iff.mpr ?_
    intro i hi
    have hmemf : f i ∈ sub.filter (fun r => decide (r.id = i)) := by
      rw [hf i hi]
      exact List.mem_cons_self _ _
    have : hasId sub i = true :=
      List.any_eq_true.mpr ⟨f i, (List.mem_filter.mp hmemf).1, (List.mem_filter.mp hmemf).2⟩
    simp [this]
  · unfold candidateFor
    rw [selFor_map sub f b.row_ids hf, List.map_map]
    rfl

/-- Witness for C2: a submission with an extra column and a batch requesting
`[2, 1]` hands the check exactly the two coordinate pairs in that order. -/
theorem claim_C2_witness :
    missingFor [⟨1, 10, 11, [5]⟩, ⟨2, 20, 21, [6]⟩] ⟨0, [2, 1]⟩ = [] ∧
    candidateFor [⟨1, 10, 11, [5]⟩, ⟨2, 20, 21, [6]⟩] ⟨0, [2, 1]⟩ =
      List.map
        (fun i =>
          ⟨((fun j : Int =>
            if j = 1 then (⟨1, 10, 11, [5]⟩ : SubRow) else ⟨2, 20, 21, [6]⟩) i).x,
           ((fun j : Int =>
            if j = 1 then (⟨1, 10, 11, [5]⟩ : SubRow) else ⟨2, 20, 21, [6]⟩) i).y⟩)
        [2, 1] :=
  claim_C2 [⟨1, 10, 11, [5]⟩, ⟨2, 20, 21, [6]⟩] ⟨0, [2, 1]⟩
    (fun j : Int => if j = 1 then ⟨1, 10, 11, [5]⟩ else ⟨2, 20, 21, [6]⟩) (by decide)

/-- Claim C5: a batch requesting an identifier absent from the submission
fails with the distinct missing-ids outcome naming the 1-based batch index
and the missing identifiers, whatever batches follow (they are never
consumed); reached as part of a run, the failure carries the index of that
batch. -/
theorem claim_C5 (chk : Check) (sub : List SubRow) (b : Batch) (i : Int)
    (hi : i ∈ b.row_ids) (habs : ∀ r ∈ sub, ¬ r.id = i) :
    i ∈ missingFor sub b ∧
    (∀ (idx total : Nat) (rest : List Batch),
      validateBatches chk sub idx total (b :: rest) =
        VResult.missingIds (idx + 1) (missingFor sub b)) ∧
    (∀ (s : Submission) (pre rest : List Batch) (T C : Nat),
      s.has_id = true → s.has_x = true → s.has_y = true → s.rows = sub →
      validateBatches chk sub 0 0 pre = VResult.ok T C →
      validate s chk (pre ++ b :: rest) =
        VResult.missingIds (C + 1) (missingFor sub b)) := by
  have hno : hasId sub i = false := by
    unfold hasId
    refine List.any_eq_false.mpr ?_
    intro r hr
    simpa using habs r hr
  have hmem : i ∈ missingFor sub b := List.mem_filter.mpr ⟨hi, by simp [hno]⟩
  have hne : missingFor sub b ≠ [] := List.ne_nil_of_mem hmem
  have hloop : ∀ (idx total : Nat) (rest : List Batch),
      validateBatches chk sub idx total (b :: rest) =
        VResult.missingIds (idx + 1) (missingFor sub b) := by
    intro idx total rest
    rw [validateBatches_cons, if_pos hne]
  refine ⟨hmem, hloop, ?_⟩
  intro s pre rest T C hid hx hy hrows hpre
  unfold validate
  rw [if_neg (by simp [hid]), if_neg (by simp [hx, hy]), hrows,
    validateBatches_append chk sub _ pre 0 0 T C hpre, hloop]

/-- Witness for C5: the spec's Scenario 4 — submission missing id `42`
requested by batch 3: the run fails with the missing-ids outcome naming
batch 3 and id 42, with a batch 4 present but never validated. -/
theorem claim_C5_witness :
    validate ⟨true, true, true, [⟨1, 10, 11, []⟩]⟩ (fun _ _ _ => Except.ok ())
        ([⟨0, [1]⟩, ⟨0, [1]⟩] ++ ⟨0, [42]⟩ :: [⟨0, [1]⟩]) =
      VResult.missingIds 3 [42] :=
  ((claim_C5 (fun _ _ _ => Except.ok ()) [⟨1, 10, 11, []⟩] ⟨0, [42]⟩ 42
      (by decide) (by decide)).2.2
    ⟨true, true, true, [⟨1, 10, 11, []⟩]⟩ [⟨0, [1]⟩, ⟨0, [1]⟩] [⟨0, [1]⟩] 2 2
    rfl rfl rfl rfl (by rfl)).trans (by rfl)

/-- Claim C6: when the external check raises on batch `b`, the run stops at
`b` whatever batches follow, surfaces the external error's kind and details
verbatim, exits with code 3, and the total of validated rows is the
accumulation over the passed batches before `b` only. -/
theorem claim_C6 (chk : Check) (s : Submission) (pre : List Batch) (b : Batch)
    (rest : List Batch) (e : GatewayRuntimeError) (T C : Nat)
    (hid : s.has_id = true) (hx : s.has_x = true) (hy : s.has_y = true)
    (hpre : validateBatches chk s.rows 0 0 pre = VResult.ok T C)
    (hmiss : missingFor s.rows b = [])
    (hb : chk (candidateFor s.rows b) b.row_ids b.payload = Except.error e) :
    validate s chk (pre ++ b :: rest) =
      VResult.harnessError e.error_type e.error_details T ∧
    exitCode (validate s chk (pre ++ b :: rest)) = 3 := by
  have h1 : validate s chk (pre ++ b :: rest) =
      VResult.harnessError e.error_type e.error_details T := by
    unfold validate
    rw [if_neg (by simp [hid]), if_neg (by simp [hx, hy]),
      validateBatches_append chk s.rows _ pre 0 0 T C hpre,
      validateBatches_cons, if_neg (by simp [hmiss]), hb]
  exact ⟨h1, by rw [h1]; rfl⟩

/-- Witness for C6: the spec's Scenario 5 — all required ids present, the
external check rejects batch 2; the run fails at batch 2 with the external
kind and details, and the total reflects only batch 1's single row. -/
theorem claim_C6_witness :
    validate ⟨true, true, true, [⟨1, 10, 11, []⟩, ⟨2, 20, 21, []⟩]⟩
        (fun c _ _ => if c.length = 1 then Except.ok ()
          else Except.error ⟨"SUBMISSION_ERROR", "bad"⟩)
        ([⟨0, [1]⟩] ++ ⟨5, [1, 2]⟩ :: [⟨9, [1]⟩]) =
      VResult.harnessError "SUBMISSION_ERROR" "bad" 1 ∧
    exitCode (validate ⟨true, true, true, [⟨1, 10, 11, []⟩, ⟨2, 20, 21, []⟩]⟩
        (fun c _ _ => if c.length = 1 then Except.ok ()
          else Except.error ⟨"SUBMISSION_ERROR", "bad"⟩)
        ([⟨0, [1]⟩] ++ ⟨5, [1, 2]⟩ :: [⟨9, [1]⟩])) = 3 :=
  claim_C6
    (fun c _ _ => if c.length = 1 then Except.ok ()
      else Except.error ⟨"SUBMISSION_ERROR", "bad"⟩)
    ⟨true, true, true, [⟨1, 10, 11, []⟩, ⟨2, 20, 21, []⟩]⟩
    [⟨0, [1]⟩] ⟨5, [1, 2]⟩ [⟨9, [1]⟩] ⟨"SUBMISSION_ERROR", "bad"⟩ 1 1
    rfl rfl rfl (by rfl) (by rfl) (by rfl)

/-- Claim C8: the validator checks its preconditions eagerly — a submission
lacking the `id` column, or lacking `x` or `y`, terminates with the
configuration error (exit code 2) independently of the batch stream; exit
code is 0 on the success outcome and 3 on a harness-reported failure. -/
theorem claim_C8 (s : Submission) (chk : Check) (batches : List Batch) :
    (s.has_id = false →
      validate s chk batches = VResult.configError "submission must contain the id column" ∧
      validate s chk batches = validate s chk [] ∧
      exitCode (validate s chk batches) = 2)
    ∧ (s.has_id = true → (s.has_x && s.has_y) = false →
      validate s chk batches = VResult.configError "submission must include columns x and y" ∧
      validate s chk batches = validate s chk [] ∧
      exitCode (validate s chk batches) = 2)
    ∧ (∀ T C : Nat, exitCode (VResult.ok T C) = 0)
    ∧ (∀ (t d : String) (T : Nat), exitCode (VResult.harnessError t d T) = 3) := by
  refine ⟨?_, ?_, fun T C => rfl, fun t d T => rfl⟩
  · intro hid
    have h1 : validate s chk batches =
        VResult.configError "submission must contain the id column" := by
      unfold validate
      rw [if_pos hid]
    have h2 : validate s chk [] =
        VResult.configError "submission must contain the id column" := by
      unfold validate
      rw [if_pos hid]
    exact ⟨h1, h1.trans h2.symm, by rw [h1]; rfl⟩
  · intro hid hxy
    have h1 : validate s chk batches =
        VResult.configError "submission must include columns x and y" := by
      unfold validate
      rw [if_neg (by simp [hid]), if_pos hxy]
    have h2 : validate s chk [] =
        VResult.configError "submission must include columns x and y" := by
      unfold validate
      rw [if_neg (by simp [hid]), if_pos hxy]
    exact ⟨h1, h1.trans h2.symm, by rw [h1]; rfl⟩

/-- Witness for C8: a submission without its `id` column, and one without
its `x` column, are rejected with the configuration error before the batch
with id 1 is ever consumed; the success outcome exits 0. -/
theorem claim_C8_witness :
    validate ⟨false, true, true, [⟨1, 0, 0, []⟩]⟩ (fun _ _ _ => Except.ok ()) [⟨0, [1]⟩] =
      VResult.configError "submission must contain the id column" ∧
    validate ⟨true, false, true, [⟨1, 0, 0, []⟩]⟩ (fun _ _ _ => Except.ok ()) [⟨0, [1]⟩] =
      VResult.configError "submission must include columns x and y" ∧
    exitCode (VResult.ok 3 2) = 0 :=
  ⟨((claim_C8 ⟨false, true, true, [⟨1, 0, 0, []⟩]⟩ (fun _ _ _ => Except.ok ())
      [⟨0, [1]⟩]).1 rfl).1,
   ((claim_C8 ⟨true, false, true, [⟨1, 0, 0, []⟩]⟩ (fun _ _ _ => Except.ok ())
      [⟨0, [1]⟩]).2.1 rfl rfl).1,
   (claim_C8 ⟨false, true, true, []⟩ (fun _ _ _ => Except.ok ()) []).2.2.1 3 2⟩

/-- Claim C10: the validator never checks id uniqueness — a submission with
duplicate rows for a requested identifier yields a candidate table with
more rows than the batch requested identifiers, and with an accepting
external check the batch still passes through every validator error path
undetected. -/
theorem claim_C10 (sub : List SubRow) (b : Batch) (i : Int)
    (hi : i ∈ b.row_ids)
    (hdup : 2 ≤ (sub.filter (fun r => decide (r.id = i))).length)
    (hmiss : missingFor sub b = []) :
    b.row_ids.length < (candidateFor sub b).length ∧
    ∀ (idx total : Nat),
      validateBatches (fun _ _ _ => Except.ok ()) sub idx total [b] =
        VResult.ok (total + (candidateFor sub b).length) (idx + 1) := by
  have hall : ∀ j ∈ b.row_ids, hasId sub j = true := by
    intro j hj
    by_contra hcon
    have hjn : hasId sub j = false := by
      cases hj2 : hasId sub j with
      | true => exact absurd hj2 hcon
      | false => rfl
    have hjm : j ∈ missingFor sub b := List.mem_filter.mpr ⟨hj, by simp [hjn]⟩
    rw [hmiss] at hjm
    simp at hjm
  constructor
  · unfold candidateFor
    rw [List.length_map]
    exact selFor_length_lt sub i b.row_ids hall hi hdup
  · intro idx total
    rw [validateBatches_cons, if_neg (by simp [hmiss])]
    rfl

/-- Witness for C10: a submission holding two rows with id 1; the batch
requesting `[1]` produces a two-row candidate table and still validates. -/
theorem claim_C10_witness :
    List.length ([1] : List Int) <
      (candidateFor [⟨1, 10, 11, []⟩, ⟨1, 12, 13, []⟩] ⟨0, [1]⟩).length ∧
    validateBatches (fun _ _ _ => Except.ok ()) [⟨1, 10, 11, []⟩, ⟨1, 12, 13, []⟩]
        0 0 [⟨0, [1]⟩] =
      VResult.ok (0 + (candidateFor [⟨1, 10, 11, []⟩, ⟨1, 12, 13, []⟩] ⟨0, [1]⟩).length)
        (0 + 1) :=
  ⟨(claim_C10 [⟨1, 10, 11, []⟩, ⟨1, 12, 13, []⟩] ⟨0, [1]⟩ 1 (by decide) (by decide)
      (by rfl)).1,
   (claim_C10 [⟨1, 10, 11, []⟩, ⟨1, 12, 13, []⟩] ⟨0, [1]⟩ 1 (by decide) (by decide)
      (by rfl)).2 0 0⟩

end NflDataViz
